import Mathlib

/-
Verification of the optimistic-write reconciliation and synchronization core
of the InfraDon2 post/comment application.  The definitions below are a
shallow embedding of `src/components/TheWelcome.vue`: the document data
model, the local replica store with compare-and-swap revision tokens, the
conflict-aware writer `putWithRetry`, the sync coordinator
(`startLiveSync` / `stopLiveSync` / `fullSyncOnce`) and the public CRUD
operations.  Revision tokens are modelled as natural numbers bumped on
every accepted write; store errors carry the numeric `status` field the
code inspects (`e?.status === 409`).
-/

namespace InfraDon

/-- Document payloads: the two document variants of the data model
(`PostDoc` and `CommentDoc` in the source, discriminated by `type`). -/
inductive DocData where
  | post (post_name post_content : String) (attributes : List String)
      (likes : Nat) (created_at : String)
  | comment (postId author text created_at : String)
deriving DecidableEq

/-- A document as the store holds it: id, current revision token, payload. -/
structure StoredDoc where
  id : String
  rev : Nat
  data : DocData
deriving DecidableEq

/-- A draft document as the application passes it around: `_id` and `_rev`
are optional, mirroring the optional fields of the source interfaces. -/
structure Draft where
  _id : Option String
  _rev : Option Nat
  data : DocData
deriving DecidableEq

/-- The stored document as the client returns it from `get` (with `_id`
and `_rev` fields populated). -/
def StoredDoc.toDraft (d : StoredDoc) : Draft :=
  ⟨some d.id, some d.rev, d.data⟩

/-- Errors raised by the store client or by `putWithRetry` itself.
`dbOrIdMissing` models the plain `Error('DB or _id missing')` thrown by
`putWithRetry`, which carries no `status` field. -/
inductive DbError where
  | conflict
  | notFound
  | dbOrIdMissing
  | other (status : Nat)
deriving DecidableEq

/-- The numeric `status` field the code inspects (`e?.status === 409`).
A conflict is 409, not-found is 404; the plain `Error` has none. -/
def DbError.status : DbError → Option Nat
  | .conflict => some 409
  | .notFound => some 404
  | .dbOrIdMissing => none
  | .other s => some s

/-- The local replica store: a collection of stored documents.
Well-formed stores have pairwise distinct ids. -/
abbrev Store := List StoredDoc

/-- `db.get(id)`: fetch a document by id; 404 when absent. -/
def Store.get (s : Store) (id : String) : Except DbError StoredDoc :=
  match s.find? (fun d => d.id == id) with
  | some d => .ok d
  | none => .error .notFound

/-- `db.put(doc)`: compare-and-swap write.  A write on an existing id must
present the store's current revision token; a create (no `_rev`) succeeds
only when the id is free.  An accepted write bumps the token and returns
it together with the updated store. -/
def Store.put (s : Store) (draft : Draft) : Except DbError (Store × Nat) :=
  match draft._id with
  | none => .error (.other 412)
  | some id =>
    match s.find? (fun d => d.id == id) with
    | some cur =>
      if draft._rev == some cur.rev then
        .ok (s.map (fun d => if d.id == id then ⟨id, cur.rev + 1, draft.data⟩ else d),
             cur.rev + 1)
      else .error .conflict
    | none =>
      match draft._rev with
      | none => .ok (s ++ [⟨id, 1, draft.data⟩], 1)
      | some _ => .error .conflict

/-- `db.remove(id, rev)`: tombstone a document; the presented revision
token must match the current one. -/
def Store.remove (s : Store) (id : String) (rev : Nat) : Except DbError Store :=
  match s.find? (fun d => d.id == id) with
  | none => .error .notFound
  | some cur =>
    if cur.rev == rev then .ok (s.filter (fun d => !(d.id == id)))
    else .error .conflict

/-- The store client interface `putWithRetry` is written against: the
`put` and `get` methods of the database handle.  `pouchOps` below is the
local replica store instance; other instances model a store under
concurrent interference or transport failure. -/
structure DbOps (σ : Type) where
  put : σ → Draft → Except DbError (σ × Nat)
  get : σ → String → Except DbError StoredDoc

/-- The store client of the local replica store. -/
def pouchOps : DbOps Store :=
  ⟨Store.put, Store.get⟩

deriving instance DecidableEq for Except

/-- `putWithRetry` (TheWelcome.vue lines 92-110): throw when the database
handle or the draft's `_id` is missing; otherwise attempt the write.  On
an error whose `status` is 409 with retry budget remaining, fetch the
latest stored document, apply `merge` to it, force the new draft's
`_id`/`_rev` to the fetched document's, and recurse with the budget
decremented.  Every other error (including the final conflict once the
budget is exhausted, and a failing refetch) is rethrown.  The result pairs
the possibly updated store with the outcome. -/
def putWithRetry (ops : DbOps σ) (db : Option σ) (draft : Draft)
    (merge : Draft → Draft) (maxRetry : Nat) : Option σ × Except DbError Nat :=
  match db, draft._id with
  | some s, some id =>
    (match ops.put s draft with
     | .ok (s2, rev) => (some s2, .ok rev)
     | .error e =>
       if e.status == some 409 then
         match maxRetry with
         | n + 1 =>
           (match ops.get s id with
            | .error e2 => (db, .error e2)
            | .ok latest =>
              putWithRetry ops db
                { merge latest.toDraft with _id := some latest.id, _rev := some latest.rev }
                merge n)
         | 0 => (db, .error e)
       else (db, .error e))
  | _, _ => (db, .error .dbOrIdMissing)

/-- `putWithRetry` instrumented with the number of `put` calls and of
refetches (`get` calls) it issues: same recursion, returning
`(result, puts, gets)`. -/
def putWithRetryI (ops : DbOps σ) (db : Option σ) (draft : Draft)
    (merge : Draft → Draft) (maxRetry : Nat) :
    (Option σ × Except DbError Nat) × Nat × Nat :=
  match db, draft._id with
  | some s, some id =>
    (match ops.put s draft with
     | .ok (s2, rev) => ((some s2, .ok rev), 1, 0)
     | .error e =>
       if e.status == some 409 then
         match maxRetry with
         | n + 1 =>
           (match ops.get s id with
            | .error e2 => ((db, .error e2), 1, 1)
            | .ok latest =>
              let r := putWithRetryI ops db
                { merge latest.toDraft with _id := some latest.id, _rev := some latest.rev }
                merge n
              (r.1, 1 + r.2.1, 1 + r.2.2))
         | 0 => ((db, .error e), 1, 0)
       else ((db, .error e), 1, 0))
  | _, _ => ((db, .error .dbOrIdMissing), 0, 0)

/-- Number of `put` calls `putWithRetry` issues. -/
def putAttemptCount (ops : DbOps σ) (db : Option σ) (draft : Draft)
    (merge : Draft → Draft) (maxRetry : Nat) : Nat :=
  (putWithRetryI ops db draft merge maxRetry).2.1

/-- Number of refetches (`get` calls) `putWithRetry` issues. -/
def refetchCount (ops : DbOps σ) (db : Option σ) (draft : Draft)
    (merge : Draft → Draft) (maxRetry : Nat) : Nat :=
  (putWithRetryI ops db draft merge maxRetry).2.2

/-- The merge function of a "like" operation (TheWelcome.vue line 379):
`(l) => ({ ...l, likes: (l.likes || 0) + 1 })`.  On a non-post payload the
spread leaves the modelled fields unchanged. -/
def incLikes (l : Draft) : Draft :=
  { l with data := match l.data with
      | .post n c a k t => .post n c a (k + 1) t
      | d => d }

/-- The write a "like" operation performs (TheWelcome.vue lines 377-379):
the draft handed to `putWithRetry` is the fetched document itself and the
merge function increments `likes`.  The read is made explicit so the reads
of two concurrent writers can interleave. -/
def likeWrite (db : Option Store) (latest : StoredDoc) : Option Store × Except DbError Nat :=
  putWithRetry pouchOps db latest.toDraft incLikes 2

/-- The like counter of a stored document (0 for comments, as `likes || 0`). -/
def StoredDoc.likesOf (d : StoredDoc) : Nat :=
  match d.data with
  | .post _ _ _ k _ => k
  | .comment _ _ _ _ => 0

/-- Spec scenario store: post `post:1` with `likes = 0` (one revision). -/
def likeD0 : StoredDoc := ⟨"post:1", 1, .post "Hello" "" [] 0 "t0"⟩

/-- Store before either like write. -/
def likeS0 : Store := [likeD0]

/-- Store after the first writer's accepted write. -/
def likeS1 : Store := [⟨"post:1", 2, .post "Hello" "" [] 0 "t0"⟩]

/-- Store after the second writer's conflict, refetch, merge and accepted
retry. -/
def likeS2 : Store := [⟨"post:1", 3, .post "Hello" "" [] 1 "t0"⟩]

/-- Witness store: one post at revision 2. -/
def wDoc : StoredDoc := ⟨"p", 2, .post "N" "C" [] 5 "t"⟩

/-- Witness store holding `wDoc`. -/
def wStore : Store := [wDoc]

/-- A stale draft for `wDoc` (carries revision token 1, store holds 2). -/
def wStale : Draft := ⟨some "p", some 1, .post "N" "C" [] 5 "t"⟩

/-- A store client under persistent concurrent interference: every write
is rejected with a conflict, reads succeed. -/
def conflictOps : DbOps Store := ⟨fun _ _ => .error .conflict, fun _ _ => .ok wDoc⟩

/-- A store client with a non-conflict failure (e.g. transport error,
status 500): every write fails, reads succeed. -/
def faultyOps : DbOps Store := ⟨fun _ _ => .error (.other 500), fun _ _ => .ok wDoc⟩

/-- JS `String.prototype.trim`: strip leading and trailing whitespace. -/
def trimStr (s : String) : String :=
  ⟨((s.data.dropWhile Char.isWhitespace).reverse.dropWhile Char.isWhitespace).reverse⟩

/-- Code-point lexicographic order on character lists. -/
def charsLe : List Char → List Char → Bool
  | [], _ => true
  | _ :: _, [] => false
  | a :: as, b :: bs =>
    if a.toNat < b.toNat then true
    else if b.toNat < a.toNat then false
    else charsLe as bs

/-- Code-point lexicographic order on strings (the order JS
`localeCompare` and the store's string collation induce on the ASCII
timestamps used here). -/
def strLe (a b : String) : Bool := charsLe a.data b.data

/-- Does `hay` start with `needle`? -/
def startsList : List Char → List Char → Bool
  | [], _ => true
  | _ :: _, [] => false
  | a :: as, b :: bs => a == b && startsList as bs

/-- Substring containment of `needle` in `hay`. -/
def hasSub (needle : List Char) (hay : List Char) : Bool :=
  match hay with
  | [] => needle.isEmpty
  | _ :: t => startsList needle hay || hasSub needle t

/-- The `$regex` selector on a plain search term, which matches any name
containing the term as a literal substring. -/
def strContains (hay needle : String) : Bool := hasSub needle.data hay.data

/-- Insert into a sorted list (`le x y`: `x` sorts no later than `y`). -/
def insertLe (le : α → α → Bool) (x : α) : List α → List α
  | [] => [x]
  | y :: ys => if le x y then x :: y :: ys else y :: insertLe le x ys

/-- Insertion sort by a Boolean comparator: the model of the JS
`Array.prototype.sort` and of the store's sorted query results. -/
def sortByLe (le : α → α → Bool) : List α → List α
  | [] => []
  | x :: xs => insertLe le x (sortByLe le xs)

/-- Is the document a post (`type = 'post'`)? -/
def StoredDoc.isPost (d : StoredDoc) : Bool :=
  match d.data with
  | .post _ _ _ _ _ => true
  | .comment _ _ _ _ => false

/-- Is the document a comment (`type = 'comment'`)? -/
def StoredDoc.isComment (d : StoredDoc) : Bool :=
  match d.data with
  | .post _ _ _ _ _ => false
  | .comment _ _ _ _ => true

/-- The `postId` back-reference of a comment. -/
def StoredDoc.commentPostId (d : StoredDoc) : Option String :=
  match d.data with
  | .post _ _ _ _ _ => none
  | .comment p _ _ _ => some p

/-- The `created_at` field. -/
def StoredDoc.createdAt (d : StoredDoc) : String :=
  match d.data with
  | .post _ _ _ _ t => t
  | .comment _ _ _ t => t

/-- The `post_name` field of a post. -/
def StoredDoc.postName (d : StoredDoc) : String :=
  match d.data with
  | .post n _ _ _ _ => n
  | .comment _ _ _ _ => ""

/-- The selector of the cascade/comment queries:
`{ type: 'comment', postId }`. -/
def commentsOf (pid : String) (d : StoredDoc) : Bool :=
  d.isComment && d.commentPostId == some pid

/-- Trace events, recorded in execution order: the two replication legs
of a one-shot sync, and a read-side refresh (`fetchPosts`). -/
inductive Evt where
  | pushed
  | pulled
  | refreshed
deriving DecidableEq

/-- The component's state: database handles, live-sync channel
bookkeeping, search/sort controls, read-side view state, the error log
(`console.error`) and the event trace.  A channel created while
`nextChannel = n` has id `n`; `activeChannels` holds the ids of channels
opened and not yet cancelled. -/
structure AppState where
  localDb : Option Store
  remoteDb : Option Store
  syncHandler : Option Nat
  activeChannels : List Nat
  nextChannel : Nat
  searchTerm : String
  sortByLikes : Bool
  postsData : List StoredDoc
  postsBookmark : Option Nat
  hasMorePosts : Bool
  lastCommentByPost : List (String × Option StoredDoc)
  otherCommentsByPost : List (String × List StoredDoc)
  commentsVisibility : List (String × Bool)
  errorLog : List String
  events : List Evt
deriving DecidableEq

/-- Set a key in a keyed record (`ref[key] = value`). -/
def setEntry (m : List (String × α)) (k : String) (v : α) : List (String × α) :=
  if m.any (fun p => p.1 == k) then m.map (fun p => if p.1 == k then (k, v) else p)
  else m ++ [(k, v)]

/-- Delete a key from a keyed record (`delete ref[key]`). -/
def dropEntry (m : List (String × α)) (k : String) : List (String × α) :=
  m.filter (fun p => !(p.1 == k))

/-- `console.error` at an operation boundary. -/
def logError (st : AppState) (msg : String) : AppState :=
  { st with errorLog := st.errorLog ++ [msg] }

/-- The query/read contract (`db.find` with selector, sort, limit,
bookmark): filter, sort, page.  The opaque bookmark is modelled as the
offset of the next page. -/
def Store.findPage (s : Store) (sel : StoredDoc → Bool) (le : StoredDoc → StoredDoc → Bool)
    (limit : Nat) (bookmark : Option Nat) : List StoredDoc × Option Nat :=
  let matched := sortByLe le (s.filter sel)
  let off := bookmark.getD 0
  let page := (matched.drop off).take limit
  (page, some (off + page.length))

/-- Page size of the posts list. -/
def PAGE_SIZE : Nat := 10

/-- `buildPostsQuery` selector (lines 213-229): `type = 'post'`, a
`$regex` name filter when a trimmed search term is set, and the
always-true range guard added for the chosen sort field
(`likes >= 0` on a Nat, `created_at >= ''`). -/
def postSel (st : AppState) (d : StoredDoc) : Bool :=
  let term := trimStr st.searchTerm
  d.isPost && (term == "" || strContains d.postName term) &&
    (if st.sortByLikes then decide (0 ≤ d.likesOf) else strLe "" d.createdAt)

/-- `buildPostsQuery` sort: likes descending, or `created_at`
descending. -/
def postCmp (st : AppState) (a b : StoredDoc) : Bool :=
  if st.sortByLikes then decide (b.likesOf ≤ a.likesOf)
  else strLe b.createdAt a.createdAt

/-- One replication leg's transferred data
(`PouchDB.replicate(source, destination)` on success): copy every source
document the destination lacks or holds at a lower revision. -/
def Store.replicateTo (src dst : Store) : Store :=
  src.foldl (fun acc d =>
    match acc.find? (fun x => x.id == d.id) with
    | none => acc ++ [d]
    | some cur =>
      if cur.rev < d.rev then acc.map (fun x => if x.id == d.id then d else x)
      else acc) dst

/-- The external collaborator contracts of the sync/query path (the
replication engine and `db.find`): a one-shot replication leg and a paged
query.  Either call may be failed by the environment (network failure,
closed handle) instead of returning its result.  The operations below are
written against this interface; `okExt` is the fault-free environment. -/
structure ExtOps where
  replicate : Store → Store → Except DbError Store
  findPage : Store → (StoredDoc → Bool) → (StoredDoc → StoredDoc → Bool) → Nat →
    Option Nat → Except DbError (List StoredDoc × Option Nat)

/-- The fault-free environment: a replication leg transfers the winning
revisions, a query returns the modelled page. -/
def okExt : ExtOps :=
  ⟨fun src dst => .ok (Store.replicateTo src dst),
   fun s sel le lim bm => .ok (Store.findPage s sel le lim bm)⟩

/-- An environment whose replication legs and queries all fail with a
transport error (status 500). -/
def downExt : ExtOps :=
  ⟨fun _ _ => .error (.other 500), fun _ _ _ _ _ => .error (.other 500)⟩

/-- An environment where replication into an empty destination succeeds
and every other call fails: the pull leg breaks after a successful
push. -/
def pullFailExt : ExtOps :=
  ⟨fun src dst =>
     if dst = [] then .ok (Store.replicateTo src dst) else .error (.other 500),
   fun _ _ _ _ _ => .error (.other 500)⟩

/-- `fetchComments` (lines 63-81): query up to 500 comments of a post,
sort by `created_at` descending, record the newest as the last comment
and the rest separately.  Its try/catch is internal to the helper. -/
def fetchComments (st : AppState) (postId : String) : AppState :=
  match st.localDb with
  | none => st
  | some s =>
    let docs := (s.filter (commentsOf postId)).take 500
    let comments := sortByLe (fun a b => strLe b.createdAt a.createdAt) docs
    { st with
      lastCommentByPost := setEntry st.lastCommentByPost postId comments.head?,
      otherCommentsByPost := setEntry st.otherCommentsByPost postId (comments.drop 1) }

/-- The comment refreshes `fetchPosts` issues for the fetched page (the
source awaits them jointly; each writes a distinct key, so sequential
application is equivalent). -/
def fetchCommentsAll (st : AppState) (ids : List String) : AppState :=
  ids.foldl fetchComments st

/-- `fetchPosts` (lines 231-250), over the collaborator environment
`ext`: reset the pagination cursor (before the `try`, so the reset
persists on failure), run the posts query, refresh the read-side state
and the per-post comments, and record the refresh on the event trace.  A
query error is caught at the operation boundary and reported on the error
log.  The attachment-preview plumbing (object URLs) is UI chrome outside
the modelled state. -/
def fetchPostsE (ext : ExtOps) (st : AppState) : Except DbError AppState :=
  match st.localDb with
  | none => .ok st
  | some s =>
    let st0 := { st with postsBookmark := none, hasMorePosts := true }
    match ext.findPage s (postSel st0) (postCmp st0) PAGE_SIZE none with
    | .error _ => .ok (logError st0 "Erreur fetchPosts:")
    | .ok res =>
      let st1 := { st0 with
        postsData := res.1,
        postsBookmark := res.2,
        hasMorePosts := res.1.length == PAGE_SIZE,
        events := st0.events ++ [Evt.refreshed] }
      .ok (fetchCommentsAll st1 (res.1.map StoredDoc.id))

/-- `fetchPosts` under the fault-free environment. -/
def fetchPosts (st : AppState) : Except DbError AppState :=
  fetchPostsE okExt st

/-- `loadMorePosts` (lines 252-266), over the collaborator environment:
fetch the next page at the saved bookmark and append it.  A query error
is caught at the boundary and reported. -/
def loadMorePostsE (ext : ExtOps) (st : AppState) : Except DbError AppState :=
  match st.localDb, st.hasMorePosts with
  | some s, true =>
    (match ext.findPage s (postSel st) (postCmp st) PAGE_SIZE st.postsBookmark with
     | .error _ => .ok (logError st "Erreur loadMorePosts:")
     | .ok res =>
       let st1 := { st with
         postsData := st.postsData ++ res.1,
         postsBookmark := res.2,
         hasMorePosts := res.1.length == PAGE_SIZE }
       .ok (fetchCommentsAll st1 (res.1.map StoredDoc.id)))
  | _, _ => .ok st

/-- `loadMorePosts` under the fault-free environment. -/
def loadMorePosts (st : AppState) : Except DbError AppState :=
  loadMorePostsE okExt st

/-- `addPost` (lines 289-317): trim the form fields, reject empty
name/content, insert a fresh post document and refresh.  `newId` and
`created` stand for the `uid()` / `nowIso()` values.  The cleared form
fields are UI state outside the model. -/
def addPostE (ext : ExtOps) (st : AppState) (name content : String) (attrs : List String)
    (newId created : String) : Except DbError AppState :=
  match st.localDb with
  | none => .ok st
  | some s =>
    let post_name := trimStr name
    let post_content := trimStr content
    let attributes := (attrs.map trimStr).filter (fun a => !(a == ""))
    if post_name == "" || post_content == "" then .ok st
    else
      match Store.put s ⟨some newId, none, .post post_name post_content attributes 0 created⟩ with
      | .error _ => .ok (logError st "Erreur addPost:")
      | .ok (s2, _) => fetchPostsE ext { st with localDb := some s2 }

/-- `addPost` under the fault-free environment. -/
def addPost (st : AppState) (name content : String) (attrs : List String)
    (newId created : String) : Except DbError AppState :=
  addPostE okExt st name content attrs newId created

/-- The merge function `updatePost` passes to `putWithRetry`: reapply the
edited name, content and attributes on top of the latest revision. -/
def mergePostEdit (doc : Draft) (latest : Draft) : Draft :=
  { latest with data :=
      match latest.data, doc.data with
      | .post _ _ _ k t, .post n c a _ _ => .post n c a k t
      | d, _ => d }

/-- The field-trimming `updatePost` applies to the editing draft before
writing (lines 329-331). -/
def trimPostDraft (doc : Draft) : Draft :=
  { doc with data :=
      match doc.data with
      | .post n c a k t =>
        .post (trimStr n) (trimStr c) ((a.map trimStr).filter (fun x => !(x == ""))) k t
      | d => d }

/-- `updatePost` (lines 324-345): requires an editing draft carrying
`_id` and `_rev`; trims the fields; writes through `putWithRetry`;
refreshes.  Errors are caught at the boundary and reported. -/
def updatePostE (ext : ExtOps) (st : AppState) (editing : Option Draft) :
    Except DbError AppState :=
  match st.localDb, editing with
  | some _, some doc =>
    (match doc._id, doc._rev with
     | some _, some _ =>
       (match putWithRetry pouchOps st.localDb (trimPostDraft doc)
            (mergePostEdit (trimPostDraft doc)) 2 with
        | (_, .error _) => .ok (logError st "Erreur updatePost:")
        | (db2, .ok _) => fetchPostsE ext { st with localDb := db2 })
     | _, _ => .ok st)
  | _, _ => .ok st

/-- `updatePost` under the fault-free environment. -/
def updatePost (st : AppState) (editing : Option Draft) : Except DbError AppState :=
  updatePostE okExt st editing

/-- The per-document deletions `bulkDocs` applies for a list of
`{ ...c, _deleted: true }` tombstones (per-document results ignored):
each carries the id and revision of the document it deletes. -/
def Store.bulkDelete (s : Store) (tombs : List (String × Nat)) : Store :=
  tombs.foldl (fun acc t =>
    match Store.remove acc t.1 t.2 with
    | .ok s2 => s2
    | .error _ => acc) s

/-- `deletePost` (lines 347-372): silently return when the store handle,
the id or the revision is missing; tombstone the post; query up to 500
comments referencing it and tombstone those; drop the per-post view
entries; refresh.  Errors are caught at the boundary. -/
def deletePostE (ext : ExtOps) (st : AppState) (id : Option String) (rev : Option Nat) :
    Except DbError AppState :=
  match st.localDb, id, rev with
  | some s, some docId, some docRev =>
    (match Store.remove s docId docRev with
     | .error _ => .ok (logError st "Erreur deletePost:")
     | .ok s1 =>
       let commDocs := (s1.filter (commentsOf docId)).take 500
       let s2 := if commDocs.length != 0 then
           Store.bulkDelete s1 (commDocs.map (fun c => (c.id, c.rev)))
         else s1
       let st1 := { st with
         localDb := some s2,
         lastCommentByPost := dropEntry st.lastCommentByPost docId,
         otherCommentsByPost := dropEntry st.otherCommentsByPost docId,
         commentsVisibility := dropEntry st.commentsVisibility docId }
       fetchPostsE ext st1)
  | _, _, _ => .ok st

/-- `deletePost` under the fault-free environment. -/
def deletePost (st : AppState) (id : Option String) (rev : Option Nat) :
    Except DbError AppState :=
  deletePostE okExt st id rev

/-- `likePost` (lines 374-385): fetch the latest revision, hand it to
`putWithRetry` with the increment merge, refresh.  Errors are caught at
the boundary. -/
def likePostE (ext : ExtOps) (st : AppState) (post : Draft) : Except DbError AppState :=
  match st.localDb, post._id with
  | some s, some pid =>
    (match Store.get s pid with
     | .error _ => .ok (logError st "Erreur likePost:")
     | .ok latest =>
       match putWithRetry pouchOps st.localDb latest.toDraft incLikes 2 with
       | (_, .error _) => .ok (logError st "Erreur likePost:")
       | (db2, .ok _) => fetchPostsE ext { st with localDb := db2 })
  | _, _ => .ok st

/-- `likePost` under the fault-free environment. -/
def likePost (st : AppState) (post : Draft) : Except DbError AppState :=
  likePostE okExt st post

/-- `addComment` (lines 393-415): reject empty text, insert a fresh
comment document, refresh that post's comments. -/
def addComment (st : AppState) (postId text newId created : String) :
    Except DbError AppState :=
  match st.localDb with
  | none => .ok st
  | some s =>
    let txt := trimStr text
    if txt == "" then .ok st
    else
      match Store.put s ⟨some newId, none, .comment postId "Anonyme" txt created⟩ with
      | .error _ => .ok (logError st "Erreur addComment:")
      | .ok (s2, _) => .ok (fetchComments { st with localDb := some s2 } postId)

/-- `deleteComment` (lines 417-426): fetch the comment, tombstone it at
its current revision, refresh that post's comments. -/
def deleteComment (st : AppState) (commentId postId : String) : Except DbError AppState :=
  match st.localDb with
  | none => .ok st
  | some s =>
    match Store.get s commentId with
    | .error _ => .ok (logError st "Erreur deleteComment:")
    | .ok doc =>
      match Store.remove s doc.id doc.rev with
      | .error _ => .ok (logError st "Erreur deleteComment:")
      | .ok s2 => .ok (fetchComments { st with localDb := some s2 } postId)

/-- The merge function `updateComment` passes to `putWithRetry`: reapply
the edited text on top of the latest revision. -/
def mergeCommentEdit (txt : String) (latest : Draft) : Draft :=
  { latest with data :=
      match latest.data with
      | .comment p a _ t => .comment p a txt t
      | d => d }

/-- `updateComment` (lines 436-449): fetch the comment, set its trimmed
text, write through `putWithRetry`, refresh that post's comments. -/
def updateComment (st : AppState) (editing : Option (String × String × String)) :
    Except DbError AppState :=
  match st.localDb, editing with
  | some s, some (postId, commentId, text) =>
    (match Store.get s commentId with
     | .error _ => .ok (logError st "Erreur updateComment:")
     | .ok doc =>
       let txt := trimStr text
       match putWithRetry pouchOps st.localDb
           (mergeCommentEdit txt doc.toDraft) (mergeCommentEdit txt) 2 with
       | (_, .error _) => .ok (logError st "Erreur updateComment:")
       | (db2, .ok _) => .ok (fetchComments { st with localDb := db2 } postId))
  | _, _ => .ok st

/-- `fullSyncOnce` (lines 153-162), over the collaborator environment:
push local changes to remote, then pull remote changes to local, then
refresh — strictly in that order, each completed leg recorded on the
event trace.  A failing leg is caught at the boundary and reported;
documents already transferred remain transferred (no rollback). -/
def fullSyncOnceE (ext : ExtOps) (st : AppState) : Except DbError AppState :=
  match st.localDb, st.remoteDb with
  | some l, some r =>
    (match ext.replicate l r with
     | .error _ => .ok (logError st "Erreur fullSyncOnce:")
     | .ok r2 =>
       let st1 := { st with remoteDb := some r2, events := st.events ++ [Evt.pushed] }
       match ext.replicate r2 l with
       | .error _ => .ok (logError st1 "Erreur fullSyncOnce:")
       | .ok l2 =>
         let st2 := { st1 with localDb := some l2, events := st1.events ++ [Evt.pulled] }
         fetchPostsE ext st2)
  | _, _ => .ok st

/-- `fullSyncOnce` under the fault-free environment. -/
def fullSyncOnce (st : AppState) : Except DbError AppState :=
  fullSyncOnceE okExt st

/-- `stopLiveSync` (lines 135-140): cancel the held channel, if any. -/
def stopLiveSync (st : AppState) : AppState :=
  match st.syncHandler with
  | some c =>
    { st with activeChannels := st.activeChannels.erase c, syncHandler := none }
  | none => st

/-- `startLiveSync` (lines 142-151): require both handles, tear down any
existing channel, then open a fresh continuous channel and hold it.  (The
channel's change/error callbacks belong to the external library.) -/
def startLiveSync (st : AppState) : AppState :=
  match st.localDb, st.remoteDb with
  | some _, some _ =>
    let st1 := stopLiveSync st
    { st1 with
      syncHandler := some st1.nextChannel,
      activeChannels := st1.activeChannels ++ [st1.nextChannel],
      nextChannel := st1.nextChannel + 1 }
  | _, _ => st

/-- The `watch(isOnline)` handler (lines 511-514): going online starts
the live channel, going offline cancels it. -/
def toggleOnline (st : AppState) (v : Bool) : AppState :=
  if v then startLiveSync st else stopLiveSync st

/-- A sequence of online/offline toggles applied in order. -/
def applyToggles (st : AppState) (vs : List Bool) : AppState :=
  vs.foldl toggleOnline st

/-- Channel bookkeeping invariant: the held handle is exactly the one
active channel, or there is none. -/
def channelInv (st : AppState) : Bool :=
  match st.syncHandler with
  | some c => st.activeChannels == [c]
  | none => st.activeChannels == []

/-- A fresh component state over the given database handles. -/
def mkState (l r : Option Store) : AppState :=
  ⟨l, r, none, [], 0, "", false, [], none, true, [], [], [], [], []⟩

/-- Distinct comment ids for the cascade-limit store: `'c'` followed by
two base-26 digit characters (injective below 676). -/
def cexCommentId (i : Nat) : String :=
  ⟨['c', Char.ofNat (97 + i / 26), Char.ofNat (97 + i % 26)]⟩

/-- The `i`-th comment referencing `post:1` in the cascade-limit store. -/
def cexComment (i : Nat) : StoredDoc :=
  ⟨cexCommentId i, 1, .comment "post:1" "A" "x" "t"⟩

/-- The post of the cascade-limit store. -/
def cexPost : StoredDoc := ⟨"post:1", 1, .post "P" "C" [] 0 "t"⟩

/-- A store holding one post and 501 comments referencing it — one more
than the cascade query's `limit: 500`. -/
def cexStore : Store := cexPost :: (List.range 501).map cexComment

/-- Small cascade store: one post with two comments (the spec scenario). -/
def cwPost : StoredDoc := ⟨"post:9", 1, .post "Hello" "body" [] 0 "t1"⟩

/-- First comment of the small cascade store. -/
def cwC1 : StoredDoc := ⟨"ca", 1, .comment "post:9" "A" "one" "t2"⟩

/-- Second comment of the small cascade store. -/
def cwC2 : StoredDoc := ⟨"cb", 1, .comment "post:9" "B" "two" "t3"⟩

/-- The small cascade store. -/
def cwStore : Store := [cwPost, cwC1, cwC2]

end InfraDon

namespace InfraDon

/-- C1: on a write the store rejects with a conflict (status 409) when the
retry budget is positive, `putWithRetry` fetches the current stored
document, applies the merge function to it, sets the new draft's `_id` and
`_rev` to those of the fetched document (so the retried write carries the
current revision token), and retries with the budget decremented by one. -/
theorem putWithRetry_conflict_path (σ : Type) (ops : DbOps σ) (s : σ) (draft : Draft)
    (merge : Draft → Draft) (n : Nat) (id : String) (e : DbError) (latest : StoredDoc)
    (hid : draft._id = some id)
    (hput : ops.put s draft = Except.error e)
    (he : e.status = some 409)
    (hget : ops.get s id = Except.ok latest) :
    putWithRetry ops (some s) draft merge (n + 1) =
      putWithRetry ops (some s)
        { merge latest.toDraft with _id := some latest.id, _rev := some latest.rev }
        merge n := by
  obtain ⟨did, drev, ddata⟩ := draft
  simp only at hid
  subst hid
  rw [putWithRetry.eq_def]
  simp [hput, he, hget]

theorem putWithRetry_conflict_path_witness :
    pouchOps.put wStore wStale = Except.error DbError.conflict ∧
    DbError.status DbError.conflict = some 409 ∧
    pouchOps.get wStore "p" = Except.ok wDoc ∧
    putWithRetry pouchOps (some wStore) wStale incLikes 2 =
      putWithRetry pouchOps (some wStore)
        { incLikes wDoc.toDraft with _id := some wDoc.id, _rev := some wDoc.rev }
        incLikes 1 :=
  ⟨by decide, by decide, by decide,
   putWithRetry_conflict_path Store pouchOps wStore wStale incLikes 1 "p"
     DbError.conflict wDoc (by decide) (by decide) (by decide) (by decide)⟩

/-- C3: once the retry budget reaches zero a persistently conflicting
write surfaces the conflict to the caller (never silently dropped), and a
store error whose status is not 409 propagates immediately without any
retry or refetch. -/
theorem putWithRetry_error_surfacing :
    (∀ (σ : Type) (ops : DbOps σ) (s : σ) (draft : Draft) (merge : Draft → Draft)
       (id : String) (n : Nat),
       draft._id = some id →
       (∀ (t : σ) (d : Draft), ops.put t d = Except.error DbError.conflict) →
       (∀ (t : σ) (i : String), ∃ d, ops.get t i = Except.ok d) →
       putWithRetry ops (some s) draft merge n = (some s, Except.error DbError.conflict)) ∧
    (∀ (σ : Type) (ops : DbOps σ) (s : σ) (draft : Draft) (merge : Draft → Draft)
       (id : String) (e : DbError) (n : Nat),
       draft._id = some id →
       ops.put s draft = Except.error e →
       e.status ≠ some 409 →
       putWithRetry ops (some s) draft merge n = (some s, Except.error e) ∧
       refetchCount ops (some s) draft merge n = 0) := by
  constructor
  · intro σ ops s draft merge id n
    induction n generalizing draft id with
    | zero =>
      intro hid hput _hget
      obtain ⟨did, drev, ddata⟩ := draft
      simp only at hid
      subst hid
      rw [putWithRetry.eq_def]
      simp [hput]
    | succ n ih =>
      intro hid hput hget
      obtain ⟨d, hd⟩ := hget s id
      obtain ⟨did, drev, ddata⟩ := draft
      simp only at hid
      subst hid
      rw [putWithRetry.eq_def]
      simp only [hput, hd, DbError.status]
      exact ih _ _ rfl hput hget
  · intro σ ops s draft merge id e n hid hput he
    obtain ⟨did, drev, ddata⟩ := draft
    simp only at hid
    subst hid
    have hb : (e.status == some 409) = false := by
      simp [he]
    constructor
    · rw [putWithRetry.eq_def]
      simp [hput, hb]
    · simp only [refetchCount]
      rw [putWithRetryI.eq_def]
      simp [hput, hb]

theorem putWithRetry_error_surfacing_witness :
    (putWithRetry conflictOps (some wStore) wStale incLikes 2 =
       (some wStore, Except.error DbError.conflict)) ∧
    (putWithRetry faultyOps (some wStore) wStale incLikes 2 =
       (some wStore, Except.error (DbError.other 500)) ∧
     refetchCount faultyOps (some wStore) wStale incLikes 2 = 0) :=
  ⟨putWithRetry_error_surfacing.1 Store conflictOps wStore wStale incLikes "p" 2
     (by decide) (fun _ _ => rfl) (fun _ _ => ⟨wDoc, rfl⟩),
   putWithRetry_error_surfacing.2 Store faultyOps wStore wStale incLikes "p"
     (DbError.other 500) 2 (by decide) rfl (by decide)⟩

/-- C4: a draft lacking an `_id` makes `putWithRetry` fail with the
identity error before issuing any store operation: no put is issued, no
refetch is issued, and the store handle is returned unchanged. -/
theorem putWithRetry_missing_identity (σ : Type) (ops : DbOps σ) (db : Option σ)
    (draft : Draft) (merge : Draft → Draft) (n : Nat)
    (hid : draft._id = none) :
    putWithRetry ops db draft merge n = (db, Except.error DbError.dbOrIdMissing) ∧
    putAttemptCount ops db draft merge n = 0 ∧
    refetchCount ops db draft merge n = 0 := by
  obtain ⟨did, drev, ddata⟩ := draft
  simp only at hid
  subst hid
  refine ⟨?_, ?_, ?_⟩
  · cases db <;> (rw [putWithRetry.eq_def]; try simp)
  · cases db <;> (simp only [putAttemptCount]; rw [putWithRetryI.eq_def]; try simp)
  · cases db <;> (simp only [refetchCount]; rw [putWithRetryI.eq_def]; try simp)

theorem putWithRetry_missing_identity_witness :
    (⟨none, none, DocData.post "N" "C" [] 0 "t"⟩ : Draft)._id = none ∧
    putWithRetry pouchOps (some wStore) ⟨none, none, DocData.post "N" "C" [] 0 "t"⟩
        incLikes 2 =
      (some wStore, Except.error DbError.dbOrIdMissing) :=
  ⟨rfl,
   (putWithRetry_missing_identity Store pouchOps (some wStore)
     ⟨none, none, DocData.post "N" "C" [] 0 "t"⟩ incLikes 2 rfl).1⟩

/-- C8: `putWithRetry` terminates with a strictly decreasing retry budget:
with budget `n` it issues at most `n + 1` write attempts and at most `n`
refetches; with the default budget of 2, at most 3 write attempts. -/
theorem putWithRetry_attempt_bounds :
    ∀ (σ : Type) (ops : DbOps σ) (db : Option σ) (merge : Draft → Draft)
      (n : Nat) (draft : Draft),
      putAttemptCount ops db draft merge n ≤ n + 1 ∧
      refetchCount ops db draft merge n ≤ n ∧
      putAttemptCount ops db draft merge 2 ≤ 3 := by
  have key : ∀ (σ : Type) (ops : DbOps σ) (db : Option σ) (merge : Draft → Draft)
      (n : Nat) (draft : Draft),
      (putWithRetryI ops db draft merge n).2.1 ≤ n + 1 ∧
      (putWithRetryI ops db draft merge n).2.2 ≤ n := by
    intro σ ops db merge n
    induction n with
    | zero =>
      intro draft
      rw [putWithRetryI.eq_def]
      refine ⟨?_, ?_⟩ <;> repeat' split
      all_goals try simp
      all_goals omega
    | succ n ih =>
      intro draft
      rw [putWithRetryI.eq_def]
      refine ⟨?_, ?_⟩ <;> repeat' split
      all_goals try (simp; done)
      all_goals
        (rename_i m heqm x latest heq
         obtain rfl : m = n := by omega
         first
          | (have h := (ih ⟨some latest.id, some latest.rev, (merge latest.toDraft).data⟩).1
             simp
             omega)
          | (have h := (ih ⟨some latest.id, some latest.rev, (merge latest.toDraft).data⟩).2
             simp
             omega))
  intro σ ops db merge n draft
  exact ⟨(key σ ops db merge n draft).1, (key σ ops db merge n draft).2,
         (key σ ops db merge 2 draft).1⟩

theorem fetchComments_fields (st : AppState) (pid : String) :
    (fetchComments st pid).localDb = st.localDb ∧
    (fetchComments st pid).remoteDb = st.remoteDb ∧
    (fetchComments st pid).events = st.events ∧
    (fetchComments st pid).errorLog = st.errorLog := by
  rw [fetchComments]
  split <;> simp

theorem fetchCommentsAll_fields : ∀ (ids : List String) (st : AppState),
    (fetchCommentsAll st ids).localDb = st.localDb ∧
    (fetchCommentsAll st ids).remoteDb = st.remoteDb ∧
    (fetchCommentsAll st ids).events = st.events ∧
    (fetchCommentsAll st ids).errorLog = st.errorLog := by
  intro ids
  induction ids with
  | nil => intro st; simp [fetchCommentsAll]
  | cons i t ih =>
    intro st
    have h1 := fetchComments_fields st i
    have h2 := ih (fetchComments st i)
    simp only [fetchCommentsAll, List.foldl_cons] at h2 ⊢
    exact ⟨h2.1.trans h1.1, (h2.2.1.trans h1.2.1),
           (h2.2.2.1.trans h1.2.2.1), (h2.2.2.2.trans h1.2.2.2)⟩

theorem okExt_findPage (s : Store) (sel : StoredDoc → Bool)
    (le : StoredDoc → StoredDoc → Bool) (lim : Nat) (bm : Option Nat) :
    okExt.findPage s sel le lim bm = Except.ok (Store.findPage s sel le lim bm) := rfl

theorem okExt_replicate (src dst : Store) :
    okExt.replicate src dst = Except.ok (Store.replicateTo src dst) := rfl

theorem fetchPostsE_ok (ext : ExtOps) (st : AppState) :
    ∃ st', fetchPostsE ext st = Except.ok st' ∧ st'.localDb = st.localDb ∧
      st'.remoteDb = st.remoteDb := by
  rw [fetchPostsE.eq_def]
  split
  · exact ⟨st, rfl, rfl, rfl⟩
  · dsimp only
    split
    · refine ⟨_, rfl, ?_, ?_⟩ <;> simp [logError]
    · refine ⟨_, rfl, ?_, ?_⟩
      · rw [(fetchCommentsAll_fields _ _).1]
      · rw [(fetchCommentsAll_fields _ _).2.1]

theorem fetchPostsE_isOk (ext : ExtOps) (st : AppState) :
    (fetchPostsE ext st).isOk = true := by
  obtain ⟨st', h, _⟩ := fetchPostsE_ok ext st
  rw [h]
  rfl

theorem fetchPosts_events (st : AppState) (s : Store) (h : st.localDb = some s) :
    ∃ st', fetchPosts st = .ok st' ∧ st'.localDb = st.localDb ∧
      st'.remoteDb = st.remoteDb ∧
      st'.events = st.events ++ [Evt.refreshed] := by
  rw [fetchPosts, fetchPostsE.eq_def, h]
  simp only [okExt_findPage]
  refine ⟨_, rfl, ?_, ?_, ?_⟩
  · rw [(fetchCommentsAll_fields _ _).1]
  · rw [(fetchCommentsAll_fields _ _).2.1]
  · rw [(fetchCommentsAll_fields _ _).2.2.1]

/-- C2 (code evaluated at the spec scenario): two writers like `post:1`
(initially `likes = 0`).  Both read the document at revision 1.  The first
writer's `putWithRetry` accepts the draft it was handed — the fetched
document itself, with `likes` still 0 — so the first increment is lost;
the second writer conflicts, refetches (`likes = 0`), merges to
`likes = 1` and succeeds.  The final stored state has `likes = 1`, not the
`likes = 2` the claim requires. -/
theorem likePost_two_writers_lost_update :
    likeWrite (some likeS0) likeD0 = (some likeS1, Except.ok 2) ∧
    likeWrite (some likeS1) likeD0 = (some likeS2, Except.ok 3) ∧
    Store.get likeS2 "post:1" =
      Except.ok ⟨"post:1", 3, DocData.post "Hello" "" [] 1 "t0"⟩ ∧
    likeS2.map StoredDoc.likesOf = [1] ∧ (1 : Nat) ≠ 2 := by
  refine ⟨by decide, by decide, by decide, by decide, by decide⟩

/-- C9: no store or replication error escapes a public operation of the
core: under every collaborator environment each operation returns
normally, and a store, query or replication error raised at an operation
boundary is caught there and reported on the error log. -/
theorem no_error_escapes :
    (∀ (ext : ExtOps) (st : AppState) (name content : String) (attrs : List String)
       (newId created : String), (addPostE ext st name content attrs newId created).isOk = true) ∧
    (∀ (ext : ExtOps) (st : AppState) (editing : Option Draft),
       (updatePostE ext st editing).isOk = true) ∧
    (∀ (ext : ExtOps) (st : AppState) (id : Option String) (rev : Option Nat),
       (deletePostE ext st id rev).isOk = true) ∧
    (∀ (ext : ExtOps) (st : AppState) (post : Draft), (likePostE ext st post).isOk = true) ∧
    (∀ (st : AppState) (postId text newId created : String),
       (addComment st postId text newId created).isOk = true) ∧
    (∀ (st : AppState) (editing : Option (String × String × String)),
       (updateComment st editing).isOk = true) ∧
    (∀ (st : AppState) (commentId postId : String),
       (deleteComment st commentId postId).isOk = true) ∧
    (∀ (ext : ExtOps) (st : AppState), (fetchPostsE ext st).isOk = true) ∧
    (∀ (ext : ExtOps) (st : AppState), (loadMorePostsE ext st).isOk = true) ∧
    (∀ (ext : ExtOps) (st : AppState), (fullSyncOnceE ext st).isOk = true) ∧
    (∀ (ext : ExtOps) (st : AppState) (s : Store) (name content : String)
       (attrs : List String) (newId created : String) (e : DbError),
       st.localDb = some s →
       (trimStr name == "") = false → (trimStr content == "") = false →
       Store.put s ⟨some newId, none, .post (trimStr name) (trimStr content)
         ((attrs.map trimStr).filter (fun a => !(a == ""))) 0 created⟩ = .error e →
       addPostE ext st name content attrs newId created =
         .ok (logError st "Erreur addPost:")) ∧
    (∀ (ext : ExtOps) (st : AppState) (s : Store) (doc : Draft) (i : String) (rv : Nat)
       (db2 : Option Store) (e : DbError),
       st.localDb = some s → doc._id = some i → doc._rev = some rv →
       putWithRetry pouchOps (some s) (trimPostDraft doc)
         (mergePostEdit (trimPostDraft doc)) 2 = (db2, .error e) →
       updatePostE ext st (some doc) = .ok (logError st "Erreur updatePost:")) ∧
    (∀ (ext : ExtOps) (st : AppState) (s : Store) (docId : String) (docRev : Nat)
       (e : DbError),
       st.localDb = some s → Store.remove s docId docRev = .error e →
       deletePostE ext st (some docId) (some docRev) =
         .ok (logError st "Erreur deletePost:")) ∧
    (∀ (ext : ExtOps) (st : AppState) (s : Store) (post : Draft) (pid : String)
       (e : DbError),
       st.localDb = some s → post._id = some pid → Store.get s pid = .error e →
       likePostE ext st post = .ok (logError st "Erreur likePost:")) ∧
    (∀ (st : AppState) (s : Store) (postId text newId created : String) (e : DbError),
       st.localDb = some s → (trimStr text == "") = false →
       Store.put s ⟨some newId, none, .comment postId "Anonyme" (trimStr text) created⟩ =
         .error e →
       addComment st postId text newId created = .ok (logError st "Erreur addComment:")) ∧
    (∀ (st : AppState) (s : Store) (postId commentId text : String) (e : DbError),
       st.localDb = some s → Store.get s commentId = .error e →
       updateComment st (some (postId, commentId, text)) =
         .ok (logError st "Erreur updateComment:")) ∧
    (∀ (st : AppState) (s : Store) (commentId postId : String) (e : DbError),
       st.localDb = some s → Store.get s commentId = .error e →
       deleteComment st commentId postId = .ok (logError st "Erreur deleteComment:")) ∧
    (∀ (ext : ExtOps) (st : AppState) (s : Store) (e : DbError),
       st.localDb = some s →
       ext.findPage s (postSel { st with postsBookmark := none, hasMorePosts := true })
         (postCmp { st with postsBookmark := none, hasMorePosts := true }) PAGE_SIZE none =
         .error e →
       fetchPostsE ext st =
         .ok (logError { st with postsBookmark := none, hasMorePosts := true }
           "Erreur fetchPosts:")) ∧
    (∀ (ext : ExtOps) (st : AppState) (s : Store) (e : DbError),
       st.localDb = some s → st.hasMorePosts = true →
       ext.findPage s (postSel st) (postCmp st) PAGE_SIZE st.postsBookmark = .error e →
       loadMorePostsE ext st = .ok (logError st "Erreur loadMorePosts:")) ∧
    (∀ (ext : ExtOps) (st : AppState) (l r : Store) (e : DbError),
       st.localDb = some l → st.remoteDb = some r → ext.replicate l r = .error e →
       fullSyncOnceE ext st = .ok (logError st "Erreur fullSyncOnce:")) ∧
    (∀ (ext : ExtOps) (st : AppState) (l r r2 : Store) (e : DbError),
       st.localDb = some l → st.remoteDb = some r →
       ext.replicate l r = .ok r2 → ext.replicate r2 l = .error e →
       fullSyncOnceE ext st =
         .ok (logError { st with remoteDb := some r2, events := st.events ++ [Evt.pushed] }
           "Erreur fullSyncOnce:")) := by
  refine ⟨?_, ?_, ?_, ?_, ?_, ?_, ?_, ?_, ?_, ?_, ?_, ?_, ?_, ?_, ?_, ?_, ?_, ?_, ?_, ?_, ?_⟩
  · intro ext st name content attrs newId created
    rw [addPostE.eq_def]
    repeat' first | exact fetchPostsE_isOk _ _ | rfl | split | dsimp only
  · intro ext st editing
    rw [updatePostE.eq_def]
    repeat' first | exact fetchPostsE_isOk _ _ | rfl | split | dsimp only
  · intro ext st id rev
    rw [deletePostE.eq_def]
    repeat' first | exact fetchPostsE_isOk _ _ | rfl | split | dsimp only
  · intro ext st post
    rw [likePostE.eq_def]
    repeat' first | exact fetchPostsE_isOk _ _ | rfl | split | dsimp only
  · intro st postId text newId created
    rw [addComment]
    repeat' first | rfl | split | dsimp only
  · intro st editing
    rw [updateComment.eq_def]
    repeat' first | rfl | split | dsimp only
  · intro st commentId postId
    rw [deleteComment]
    repeat' first | rfl | split | dsimp only
  · intro ext st
    exact fetchPostsE_isOk ext st
  · intro ext st
    rw [loadMorePostsE.eq_def]
    repeat' first | rfl | split | dsimp only
  · intro ext st
    rw [fullSyncOnceE.eq_def]
    repeat' first | exact fetchPostsE_isOk _ _ | rfl | split | dsimp only
  · intro ext st s name content attrs newId created e hdb h1 h2 hput
    rw [addPostE.eq_def, hdb]
    dsimp only
    simp only [h1, h2, Bool.or_self, Bool.false_eq_true, if_false]
    rw [hput]
  · intro ext st s doc i rv db2 e hdb hid hrv hpwr
    obtain ⟨did, drev, dd⟩ := doc
    simp only at hid hrv
    subst hid
    subst hrv
    rw [updatePostE.eq_def, hdb]
    dsimp only
    rw [hpwr]
  · intro ext st s docId docRev e hdb hrem
    rw [deletePostE.eq_def, hdb]
    dsimp only
    rw [hrem]
  · intro ext st s post pid e hdb hid hget
    obtain ⟨pid0, prev, pd⟩ := post
    simp only at hid
    subst hid
    rw [likePostE.eq_def, hdb]
    dsimp only
    rw [hget]
  · intro st s postId text newId created e hdb htxt hput
    rw [addComment.eq_def, hdb]
    dsimp only
    simp only [htxt, Bool.false_eq_true, if_false]
    rw [hput]
  · intro st s postId commentId text e hdb hget
    rw [updateComment.eq_def, hdb]
    dsimp only
    rw [hget]
  · intro st s commentId postId e hdb hget
    rw [deleteComment.eq_def, hdb]
    dsimp only
    rw [hget]
  · intro ext st s e hdb herr
    rw [hdb] at herr
    rw [fetchPostsE.eq_def, hdb]
    dsimp only
    rw [herr]
  · intro ext st s e hdb hmore herr
    rw [loadMorePostsE.eq_def, hdb, hmore]
    dsimp only
    rw [herr]
  · intro ext st l r e hl hr hpush
    rw [fullSyncOnceE.eq_def, hl, hr]
    dsimp only
    rw [hpush]
  · intro ext st l r r2 e hl hr hpush hpull
    rw [fullSyncOnceE.eq_def, hl, hr]
    dsimp only
    rw [hpush]
    dsimp only
    rw [hpull]

theorem no_error_escapes_witness :
    (addPostE downExt (mkState (some wStore) (some [])) "N" "C" [] "p" "t" =
      .ok (logError (mkState (some wStore) (some [])) "Erreur addPost:")) ∧
    (updatePostE downExt (mkState (some wStore) (some []))
        (some ⟨some "zz", some 1, DocData.post "N" "C" [] 0 "t"⟩) =
      .ok (logError (mkState (some wStore) (some [])) "Erreur updatePost:")) ∧
    (deletePostE downExt (mkState (some wStore) (some [])) (some "p") (some 99) =
      .ok (logError (mkState (some wStore) (some [])) "Erreur deletePost:")) ∧
    (likePostE downExt (mkState (some wStore) (some []))
        ⟨some "zz", none, DocData.post "" "" [] 0 ""⟩ =
      .ok (logError (mkState (some wStore) (some [])) "Erreur likePost:")) ∧
    (addComment (mkState (some wStore) (some [])) "post:1" "hi" "p" "t" =
      .ok (logError (mkState (some wStore) (some [])) "Erreur addComment:")) ∧
    (updateComment (mkState (some wStore) (some [])) (some ("post:1", "zz", "x")) =
      .ok (logError (mkState (some wStore) (some [])) "Erreur updateComment:")) ∧
    (deleteComment (mkState (some wStore) (some [])) "zz" "post:1" =
      .ok (logError (mkState (some wStore) (some [])) "Erreur deleteComment:")) ∧
    (fetchPostsE downExt (mkState (some wStore) (some [])) =
      .ok (logError { mkState (some wStore) (some []) with
        postsBookmark := none, hasMorePosts := true } "Erreur fetchPosts:")) ∧
    (loadMorePostsE downExt (mkState (some wStore) (some [])) =
      .ok (logError (mkState (some wStore) (some [])) "Erreur loadMorePosts:")) ∧
    (fullSyncOnceE downExt (mkState (some wStore) (some [])) =
      .ok (logError (mkState (some wStore) (some [])) "Erreur fullSyncOnce:")) ∧
    (fullSyncOnceE pullFailExt (mkState (some wStore) (some [])) =
      .ok (logError { mkState (some wStore) (some []) with
        remoteDb := some (Store.replicateTo wStore []),
        events := (mkState (some wStore) (some [])).events ++ [Evt.pushed] }
        "Erreur fullSyncOnce:")) := by
  obtain ⟨-, -, -, -, -, -, -, -, -, -, r1, r2, r3, r4, r5, r6, r7, r8, r9, r10, r11⟩ :=
    no_error_escapes
  refine ⟨?_, ?_, ?_, ?_, ?_, ?_, ?_, ?_, ?_, ?_, ?_⟩
  · exact r1 downExt (mkState (some wStore) (some [])) wStore "N" "C" [] "p" "t"
      DbError.conflict rfl (by decide) (by decide) (by decide)
  · exact r2 downExt (mkState (some wStore) (some [])) wStore
      ⟨some "zz", some 1, DocData.post "N" "C" [] 0 "t"⟩ "zz" 1 (some wStore)
      DbError.notFound rfl rfl rfl (by decide)
  · exact r3 downExt (mkState (some wStore) (some [])) wStore "p" 99 DbError.conflict
      rfl (by decide)
  · exact r4 downExt (mkState (some wStore) (some [])) wStore
      ⟨some "zz", none, DocData.post "" "" [] 0 ""⟩ "zz" DbError.notFound rfl rfl (by decide)
  · exact r5 (mkState (some wStore) (some [])) wStore "post:1" "hi" "p" "t"
      DbError.conflict rfl (by decide) (by decide)
  · exact r6 (mkState (some wStore) (some [])) wStore "post:1" "zz" "x" DbError.notFound
      rfl (by decide)
  · exact r7 (mkState (some wStore) (some [])) wStore "zz" "post:1" DbError.notFound
      rfl (by decide)
  · exact r8 downExt (mkState (some wStore) (some [])) wStore (DbError.other 500) rfl rfl
  · exact r9 downExt (mkState (some wStore) (some [])) wStore (DbError.other 500)
      rfl rfl rfl
  · exact r10 downExt (mkState (some wStore) (some [])) wStore [] (DbError.other 500)
      rfl rfl rfl
  · exact r11 pullFailExt (mkState (some wStore) (some [])) wStore []
      (Store.replicateTo wStore []) (DbError.other 500) rfl rfl (by decide) (by decide)

/-- C10: `deletePost` called with a missing id, missing revision or an
uninitialized store handle is a silent no-op: it returns the state
unchanged — no store contact, no tombstone, no error surfaced, nothing
logged. -/
theorem deletePost_missing_args (st : AppState) (id : Option String) (rev : Option Nat)
    (h : st.localDb = none ∨ id = none ∨ rev = none) :
    deletePost st id rev = Except.ok st := by
  rw [deletePost, deletePostE.eq_def]
  split
  · rcases h with h | h | h <;> simp_all
  · rfl

theorem deletePost_missing_args_witness :
    deletePost (mkState (some wStore) none) none (some 1) =
      Except.ok (mkState (some wStore) none) ∧
    deletePost (mkState none none) (some "p") (some 1) =
      Except.ok (mkState none none) ∧
    deletePost (mkState (some wStore) none) (some "p") none =
      Except.ok (mkState (some wStore) none) :=
  ⟨deletePost_missing_args (mkState (some wStore) none) none (some 1) (Or.inr (Or.inl rfl)),
   deletePost_missing_args (mkState none none) (some "p") (some 1) (Or.inl rfl),
   deletePost_missing_args (mkState (some wStore) none) (some "p") none
     (Or.inr (Or.inr rfl))⟩

/-- C6: one-shot sync is strictly sequential push-then-pull: the pushed
remote is `replicateTo l r`, the pull leg reads that pushed remote
(yielding `replicateTo (replicateTo l r) l` locally), and the event trace
shows push, then pull, then the read-side refresh. -/
theorem fullSyncOnce_push_then_pull (st : AppState) (l r : Store)
    (hl : st.localDb = some l) (hr : st.remoteDb = some r) :
    ∃ st', fullSyncOnce st = Except.ok st' ∧
      st'.remoteDb = some (Store.replicateTo l r) ∧
      st'.localDb = some (Store.replicateTo (Store.replicateTo l r) l) ∧
      st'.events = st.events ++ [Evt.pushed, Evt.pulled, Evt.refreshed] := by
  obtain ⟨st', h, hloc, hrem, hev⟩ :=
    fetchPosts_events
      { st with localDb := some (Store.replicateTo (Store.replicateTo l r) l),
                remoteDb := some (Store.replicateTo l r),
                events := (st.events ++ [Evt.pushed]) ++ [Evt.pulled] }
      (Store.replicateTo (Store.replicateTo l r) l) rfl
  refine ⟨st', ?_, ?_, ?_, ?_⟩
  · rw [fullSyncOnce, fullSyncOnceE.eq_def, hl, hr]
    simp only [okExt_replicate]
    exact h
  · rw [hrem]
  · rw [hloc]
  · rw [hev]
    simp

theorem fullSyncOnce_push_then_pull_witness :
    (mkState (some wStore) (some [])).localDb = some wStore ∧
    (mkState (some wStore) (some [])).remoteDb = some [] ∧
    (∃ st', fullSyncOnce (mkState (some wStore) (some [])) = Except.ok st' ∧
      st'.remoteDb = some (Store.replicateTo wStore []) ∧
      st'.localDb = some (Store.replicateTo (Store.replicateTo wStore []) wStore) ∧
      st'.events = (mkState (some wStore) (some [])).events ++
        [Evt.pushed, Evt.pulled, Evt.refreshed]) :=
  ⟨rfl, rfl, fullSyncOnce_push_then_pull (mkState (some wStore) (some [])) wStore [] rfl rfl⟩

theorem stopLiveSync_inv (st : AppState) (h : channelInv st = true) :
    channelInv (stopLiveSync st) = true ∧ (stopLiveSync st).activeChannels = [] := by
  rw [channelInv] at h
  rw [stopLiveSync]
  split
  · rename_i c hc
    rw [hc] at h
    have hac : st.activeChannels = [c] := by simpa using h
    constructor
    · rw [channelInv]
      simp [hac]
    · simp [hac]
  · rename_i hc
    rw [hc] at h
    have hac : st.activeChannels = [] := by simpa using h
    exact ⟨by rw [channelInv, hc]; simpa using hac, hac⟩

theorem stopLiveSync_fields (st : AppState) :
    (stopLiveSync st).localDb = st.localDb ∧ (stopLiveSync st).remoteDb = st.remoteDb ∧
    (stopLiveSync st).nextChannel = st.nextChannel := by
  rw [stopLiveSync]
  split <;> simp

theorem startLiveSync_fields (st : AppState) :
    (startLiveSync st).localDb = st.localDb ∧ (startLiveSync st).remoteDb = st.remoteDb := by
  rw [startLiveSync]
  split
  · exact ⟨(stopLiveSync_fields st).1, (stopLiveSync_fields st).2.1⟩
  · exact ⟨rfl, rfl⟩

theorem startLiveSync_inv (st : AppState) (h : channelInv st = true) :
    channelInv (startLiveSync st) = true ∧
    (startLiveSync st).activeChannels.length ≤ 1 ∧
    (st.localDb.isSome = true → st.remoteDb.isSome = true →
      (startLiveSync st).activeChannels = [st.nextChannel] ∧
      (startLiveSync st).syncHandler = some st.nextChannel) := by
  rw [startLiveSync]
  split
  · obtain ⟨h1, h2⟩ := stopLiveSync_inv st h
    have hn := (stopLiveSync_fields st).2.2
    refine ⟨?_, ?_, ?_⟩
    · rw [channelInv]
      simp [h2]
    · simp [h2]
    · intro _ _
      simp [h2, hn]
  · refine ⟨h, ?_, ?_⟩
    · rw [channelInv] at h
      rcases hh : st.syncHandler with _ | c <;> rw [hh] at h <;> simp_all
    · intro hl hr
      rename_i hno
      exfalso
      obtain ⟨ls, hls⟩ := Option.isSome_iff_exists.mp hl
      obtain ⟨rs, hrs⟩ := Option.isSome_iff_exists.mp hr
      exact hno ls rs hls hrs

theorem toggleOnline_inv (st : AppState) (h : channelInv st = true) (v : Bool)
    (hl : st.localDb.isSome = true) (hr : st.remoteDb.isSome = true) :
    channelInv (toggleOnline st v) = true ∧
    (toggleOnline st v).localDb = st.localDb ∧
    (toggleOnline st v).remoteDb = st.remoteDb ∧
    (toggleOnline st v).activeChannels.length = (if v then 1 else 0) := by
  cases v
  · simp only [toggleOnline, Bool.false_eq_true, if_false]
    obtain ⟨h1, h2⟩ := stopLiveSync_inv st h
    exact ⟨h1, (stopLiveSync_fields st).1, (stopLiveSync_fields st).2.1, by simp [h2]⟩
  · simp only [toggleOnline, if_true]
    obtain ⟨h1, _, h3⟩ := startLiveSync_inv st h
    obtain ⟨hac, _⟩ := h3 hl hr
    exact ⟨h1, (startLiveSync_fields st).1, (startLiveSync_fields st).2, by simp [hac]⟩

theorem applyToggles_pres : ∀ (vs : List Bool) (st : AppState),
    channelInv st = true → st.localDb.isSome = true → st.remoteDb.isSome = true →
    channelInv (applyToggles st vs) = true ∧
    (applyToggles st vs).localDb.isSome = true ∧
    (applyToggles st vs).remoteDb.isSome = true := by
  intro vs
  induction vs with
  | nil => intro st h hl hr; exact ⟨h, hl, hr⟩
  | cons v t ih =>
    intro st h hl hr
    obtain ⟨h1, h2, h3, _⟩ := toggleOnline_inv st h v hl hr
    have := ih (toggleOnline st v) h1 (by rw [h2]; exact hl) (by rw [h3]; exact hr)
    simpa [applyToggles, List.foldl_cons] using this

/-- C5: at most one continuous sync channel is active at a time:
`startLiveSync` preserves the single-channel invariant, cancelling any
held channel and (when both handles exist) leaving exactly the fresh
channel active and held; `stopLiveSync` with no held channel is a no-op;
and any toggle sequence ends with exactly one active channel when the
last toggle is to online and zero when it is to offline. -/
theorem live_sync_single_channel (st : AppState) (h : channelInv st = true) :
    (channelInv (startLiveSync st) = true ∧
     (startLiveSync st).activeChannels.length ≤ 1 ∧
     (st.localDb.isSome = true → st.remoteDb.isSome = true →
       (startLiveSync st).activeChannels = [st.nextChannel] ∧
       (startLiveSync st).syncHandler = some st.nextChannel)) ∧
    (st.syncHandler = none → stopLiveSync st = st) ∧
    (∀ (vs : List Bool) (v : Bool),
       st.localDb.isSome = true → st.remoteDb.isSome = true →
       (applyToggles st (vs ++ [v])).activeChannels.length = (if v then 1 else 0)) := by
  refine ⟨startLiveSync_inv st h, ?_, ?_⟩
  · intro hnone
    rw [stopLiveSync, hnone]
  · intro vs v hl hr
    obtain ⟨h1, h2, h3⟩ := applyToggles_pres vs st h hl hr
    have := toggleOnline_inv (applyToggles st vs) h1 v h2 h3
    rw [applyToggles, List.foldl_append]
    simpa [applyToggles, List.foldl_cons] using this.2.2.2

theorem live_sync_single_channel_witness :
    channelInv
      { mkState (some wStore) (some []) with
          syncHandler := some 0, activeChannels := [0], nextChannel := 1 } = true ∧
    (applyToggles
      { mkState (some wStore) (some []) with
          syncHandler := some 0, activeChannels := [0], nextChannel := 1 }
      ([false, true, false, true] ++ [false])).activeChannels.length = 0 :=
  ⟨by decide,
   by
    have := (live_sync_single_channel
      { mkState (some wStore) (some []) with
          syncHandler := some 0, activeChannels := [0], nextChannel := 1 }
      (by decide)).2.2 [false, true, false, true] false rfl rfl
    simpa using this⟩

theorem char_toNat_ofNat (n : Nat) (h : n < 55296) : (Char.ofNat n).toNat = n := by
  rw [Char.ofNat, dif_pos (Or.inl h : Nat.isValidChar n)]
  rfl

theorem cexCommentId_inj (i j : Nat) (hi : i < 676) (hj : j < 676)
    (h : cexCommentId i = cexCommentId j) : i = j := by
  have hdata := congrArg String.data h
  simp only [cexCommentId] at hdata
  injection hdata with hhead htail
  injection htail with h1 htail2
  injection htail2 with h2 htail3
  have e1 := congrArg Char.toNat h1
  have e2 := congrArg Char.toNat h2
  rw [char_toNat_ofNat _ (by omega), char_toNat_ofNat _ (by omega)] at e1
  rw [char_toNat_ofNat _ (by omega), char_toNat_ofNat _ (by omega)] at e2
  omega

theorem cexCommentId_ne (i : Nat) : cexCommentId i ≠ "post:1" := by
  intro h
  have hdata := congrArg String.data h
  rw [show ("post:1").data = ['p', 'o', 's', 't', ':', '1'] from rfl] at hdata
  simp [cexCommentId] at hdata

theorem find?_id_of_nodup : ∀ (s : Store) (c : StoredDoc),
    (s.map StoredDoc.id).Nodup → c ∈ s →
    s.find? (fun d => d.id == c.id) = some c := by
  intro s
  induction s with
  | nil => intro c _ hc; cases hc
  | cons a t ih =>
    intro c hnd hc
    rw [List.map_cons, List.nodup_cons] at hnd
    rcases List.mem_cons.mp hc with rfl | hct
    · simp [List.find?_cons]
    · have hcid : c.id ∈ t.map StoredDoc.id := List.mem_map_of_mem _ hct
      have hne : (a.id == c.id) = false := by
        simp only [beq_eq_false_iff_ne]
        intro he
        exact hnd.1 (he ▸ hcid)
      simp only [List.find?_cons, hne]
      exact ih c hnd.2 hct

theorem mem_id_unique (s : Store) (hnd : (s.map StoredDoc.id).Nodup)
    (a b : StoredDoc) (ha : a ∈ s) (hb : b ∈ s) (he : a.id = b.id) : a = b := by
  have h1 := find?_id_of_nodup s a hnd ha
  have h2 := find?_id_of_nodup s b hnd hb
  rw [he] at h1
  rw [h1] at h2
  exact Option.some.inj h2

theorem bulkDelete_removes : ∀ (cs : List StoredDoc) (s : Store),
    (s.map StoredDoc.id).Nodup → List.Sublist cs s →
    Store.bulkDelete s (cs.map (fun c => (c.id, c.rev))) =
      s.filter (fun d => !((cs.map StoredDoc.id).contains d.id)) := by
  intro cs
  induction cs with
  | nil =>
    intro s _ _
    simp [Store.bulkDelete]
  | cons c cs ih =>
    intro s hnd hsub
    have hc : c ∈ s := hsub.subset (List.mem_cons_self _ _)
    have hfind := find?_id_of_nodup s c hnd hc
    have hrem : Store.remove s c.id c.rev =
        Except.ok (s.filter (fun d => !(d.id == c.id))) := by
      rw [Store.remove, hfind]
      simp
    have hstep : Store.bulkDelete s ((c :: cs).map (fun c => (c.id, c.rev))) =
        Store.bulkDelete (s.filter (fun d => !(d.id == c.id)))
          (cs.map (fun c => (c.id, c.rev))) := by
      simp only [List.map_cons, Store.bulkDelete, List.foldl_cons, hrem]
    have hsubt : List.Sublist (s.filter (fun d => !(d.id == c.id))) s :=
      List.filter_sublist _
    have hnd' : ((s.filter (fun d => !(d.id == c.id))).map StoredDoc.id).Nodup :=
      List.Nodup.sublist (hsubt.map _) hnd
    have hdocnd : s.Nodup := List.Nodup.of_map _ hnd
    have hccs : (c :: cs).Nodup := List.Nodup.sublist hsub hdocnd
    have hcnotin : c ∉ cs := (List.nodup_cons.mp hccs).1
    have hcsids : ∀ x ∈ cs, (x.id == c.id) = false := by
      intro x hx
      simp only [beq_eq_false_iff_ne]
      intro he
      have hxs : x ∈ s := hsub.subset (List.mem_cons_of_mem _ hx)
      have hxc := mem_id_unique s hnd x c hxs hc he
      exact hcnotin (hxc ▸ hx)
    have hsub' : List.Sublist cs (s.filter (fun d => !(d.id == c.id))) := by
      have h2 : List.Sublist cs s := List.sublist_of_cons_sublist hsub
      have h1 : cs.filter (fun d => !(d.id == c.id)) = cs :=
        List.filter_eq_self.mpr (by intro x hx; rw [hcsids x hx]; rfl)
      have h3 := h2.filter (fun d => !(d.id == c.id))
      rw [h1] at h3
      exact h3
    rw [hstep, ih _ hnd' hsub']
    rw [List.filter_filter]
    congr 1
    funext d
    rw [List.map_cons, List.contains_cons, Bool.not_or]
    cases h1 : d.id == c.id <;>
      cases h2 : (cs.map StoredDoc.id).contains d.id <;> rfl

theorem exists_ok_localDb (ext : ExtOps) (R : AppState) (F : Option Store)
    (h : R.localDb = F) :
    ∃ st2, fetchPostsE ext R = Except.ok st2 ∧ st2.localDb = F := by
  obtain ⟨st2, hfp, hloc, _⟩ := fetchPostsE_ok ext R
  exact ⟨st2, hfp, by rw [hloc, h]⟩

theorem deletePost_run (st : AppState) (s : Store) (docId : String) (rev : Nat)
    (d0 : StoredDoc)
    (hdb : st.localDb = some s)
    (hget : s.find? (fun d => d.id == docId) = some d0)
    (hrev : d0.rev = rev)
    (hnd : (s.map StoredDoc.id).Nodup) :
    ∃ st2, deletePost st (some docId) (some rev) = Except.ok st2 ∧
      st2.localDb = some
        ((s.filter (fun d => !(d.id == docId))).filter (fun d =>
          !((((((s.filter (fun d => !(d.id == docId))).filter
                (commentsOf docId)).take 500)).map
              StoredDoc.id).contains d.id))) := by
  have hrem : Store.remove s docId rev =
      Except.ok (s.filter (fun d => !(d.id == docId))) := by
    rw [Store.remove, hget]
    simp [hrev]
  have hsub1 : List.Sublist (s.filter (fun d => !(d.id == docId))) s :=
    List.filter_sublist _
  have hnd1 : ((s.filter (fun d => !(d.id == docId))).map StoredDoc.id).Nodup :=
    List.Nodup.sublist (hsub1.map _) hnd
  have hsubc : List.Sublist
      (((s.filter (fun d => !(d.id == docId))).filter (commentsOf docId)).take 500)
      (s.filter (fun d => !(d.id == docId))) :=
    (List.take_sublist _ _).trans (List.filter_sublist _)
  have hbulk := bulkDelete_removes _ _ hnd1 hsubc
  rw [deletePost, deletePostE.eq_def, hdb]
  simp only [hrem]
  by_cases hc : ((s.filter (fun d => !(d.id == docId))).filter (commentsOf docId)).take 500 = []
  · simp only [hc]
    apply exists_ok_localDb
    simp
  · apply exists_ok_localDb
    have hlen : ((((s.filter (fun d => !(d.id == docId))).filter
        (commentsOf docId)).take 500).length != 0) = true := by
      have hpos := List.length_pos.mpr hc
      simpa [bne_iff_ne] using Nat.pos_iff_ne_zero.mp hpos
    dsimp only
    rw [if_pos hlen, hbulk]

/-- C7 (amended): for a post stored at the given id and revision, with any
set of AT MOST 500 comments back-referencing it, `deletePost` cascades:
afterwards zero comments referencing that post id remain, so the follow-up
query returns empty.  (The bound comes from the cascade query's
`limit: 500`; the original claim, for arbitrarily many comments, fails —
see the counterexample.) -/
theorem deletePost_cascade (st : AppState) (s : Store) (docId : String) (rev : Nat)
    (d0 : StoredDoc)
    (hdb : st.localDb = some s)
    (hget : s.find? (fun d => d.id == docId) = some d0)
    (hrev : d0.rev = rev)
    (hnd : (s.map StoredDoc.id).Nodup)
    (hcount : (s.filter (commentsOf docId)).length ≤ 500) :
    ∃ st2 s2, deletePost st (some docId) (some rev) = Except.ok st2 ∧
      st2.localDb = some s2 ∧ s2.filter (commentsOf docId) = [] := by
  obtain ⟨st2, hdel, hloc⟩ := deletePost_run st s docId rev d0 hdb hget hrev hnd
  refine ⟨st2, _, hdel, hloc, ?_⟩
  have hcnt1 : ((s.filter (fun d => !(d.id == docId))).filter (commentsOf docId)).length
      ≤ 500 := by
    have hsubf := (List.filter_sublist (p := fun d => !(d.id == docId)) s).filter
      (commentsOf docId)
    exact le_trans hsubf.length_le hcount
  have htake : ((s.filter (fun d => !(d.id == docId))).filter (commentsOf docId)).take 500 =
      (s.filter (fun d => !(d.id == docId))).filter (commentsOf docId) :=
    List.take_of_length_le hcnt1
  rw [htake, List.filter_filter]
  rw [List.filter_eq_nil_iff]
  intro d hd
  rw [Bool.and_eq_true]
  rintro ⟨hC, hnc⟩
  have hmemf : d ∈ (s.filter (fun d => !(d.id == docId))).filter (commentsOf docId) :=
    List.mem_filter.mpr ⟨hd, hC⟩
  have hidmem : d.id ∈ ((s.filter (fun d => !(d.id == docId))).filter
      (commentsOf docId)).map StoredDoc.id := List.mem_map_of_mem _ hmemf
  have hcont : (((s.filter (fun d => !(d.id == docId))).filter
      (commentsOf docId)).map StoredDoc.id).contains d.id = true := by
    simpa [List.contains] using hidmem
  rw [hcont] at hnc
  cases hnc

theorem deletePost_cascade_witness :
    ((mkState (some cwStore) none).localDb = some cwStore) ∧
    (cwStore.find? (fun d => d.id == "post:9") = some cwPost) ∧
    ((cwStore.map StoredDoc.id).Nodup) ∧
    ((cwStore.filter (commentsOf "post:9")).length ≤ 500) ∧
    (∃ st2 s2, deletePost (mkState (some cwStore) none) (some "post:9") (some 1) =
        Except.ok st2 ∧
      st2.localDb = some s2 ∧ s2.filter (commentsOf "post:9") = []) :=
  ⟨rfl, by decide, by decide, by decide,
   deletePost_cascade (mkState (some cwStore) none) cwStore "post:9" 1 cwPost
     rfl (by decide) rfl (by decide) (by decide)⟩

theorem cex_nodup : (cexStore.map StoredDoc.id).Nodup := by
  have hids : cexStore.map StoredDoc.id =
      "post:1" :: (List.range 501).map cexCommentId := by
    rw [cexStore, List.map_cons, List.map_map]
    rfl
  rw [hids, List.nodup_cons]
  constructor
  · intro hmem
    obtain ⟨i, _, heq⟩ := List.mem_map.mp hmem
    exact cexCommentId_ne i heq
  · refine List.Nodup.map_on ?_ (List.nodup_range 501)
    intro x hx y hy hxy
    exact cexCommentId_inj x y
      (by have := List.mem_range.mp hx; omega)
      (by have := List.mem_range.mp hy; omega) hxy

theorem cex_s1 : cexStore.filter (fun d => !(d.id == "post:1")) =
    (List.range 501).map cexComment := by
  rw [cexStore, List.filter_cons]
  have hpost : (!(cexPost.id == "post:1")) = false := by decide
  simp only [hpost, Bool.false_eq_true, if_false]
  apply List.filter_eq_self.mpr
  intro d hd
  obtain ⟨i, _, rfl⟩ := List.mem_map.mp hd
  have hne := cexCommentId_ne i
  simp [cexComment, hne]

theorem cex_filterC : ((List.range 501).map cexComment).filter (commentsOf "post:1") =
    (List.range 501).map cexComment := by
  apply List.filter_eq_self.mpr
  intro d hd
  obtain ⟨i, _, rfl⟩ := List.mem_map.mp hd
  rfl

theorem cex_take : (((List.range 501).map cexComment).take 500) =
    (List.range 500).map cexComment := by
  rw [← List.map_take, List.take_range]
  norm_num

set_option maxRecDepth 10000 in
/-- C7 counterexample: a store where 501 comments reference `post:1` (one
more than the cascade query's `limit: 500`).  Deleting the post completes
normally but leaves a comment referencing the deleted post id: the
follow-up query for `postId = "post:1"` is not empty, refuting the claim
for an arbitrary set of comments. -/
theorem deletePost_cascade_limit_cex :
    (cexStore.filter (commentsOf "post:1")).length = 501 ∧
    ∃ st2 s2,
      deletePost (mkState (some cexStore) none) (some "post:1") (some 1) =
        Except.ok st2 ∧
      st2.localDb = some s2 ∧ s2.filter (commentsOf "post:1") ≠ [] := by
  constructor
  · decide
  · obtain ⟨st2, hdel, hloc⟩ := deletePost_run (mkState (some cexStore) none) cexStore
      "post:1" 1 cexPost rfl rfl rfl cex_nodup
    refine ⟨st2, _, hdel, hloc, ?_⟩
    rw [cex_s1, cex_filterC, cex_take]
    apply List.ne_nil_of_mem (a := cexComment 500)
    apply List.mem_filter.mpr
    refine ⟨?_, rfl⟩
    apply List.mem_filter.mpr
    constructor
    · exact List.mem_map_of_mem _ (List.mem_range.mpr (by omega))
    · have hmapmap : (((List.range 500).map cexComment).map StoredDoc.id) =
          (List.range 500).map cexCommentId := by
        rw [List.map_map]
        rfl
      rw [hmapmap]
      have hnotmem : (cexComment 500).id ∉ (List.range 500).map cexCommentId := by
        intro hmem
        obtain ⟨i, hi, heq⟩ := List.mem_map.mp hmem
        have hi' := List.mem_range.mp hi
        have := cexCommentId_inj i 500 (by omega) (by omega) heq
        omega
      have hcont : ((List.range 500).map cexCommentId).contains (cexComment 500).id
          = false := by
        simpa [List.contains] using hnotmem
      rw [hcont]
      rfl

end InfraDon
